import Mathlib

/-!
Verification of the WatchFlixx gateway services: circuit breaker,
load balancer, health probe, rate-limit store and monitoring metrics.
Each definition is a shallow embedding of the corresponding TypeScript
function; timestamps are naturals (milliseconds), money-free arithmetic
is over ℕ/ℤ/ℚ.
-/

namespace WatchFlix

/-- JS String.prototype.includes: substring containment. -/
def stringIncludes (hay sub : String) : Bool :=
  decide (sub.toList <:+: hay.toList)

/-! ## Circuit breaker (src/gateway/src/services/circuitBreaker.ts) -/

inductive CircuitState
  | CLOSED
  | OPEN
  | HALF_OPEN
deriving DecidableEq, Repr

structure CircuitBreakerOptions where
  threshold : ℕ
  resetTimeout : ℕ
  expectedErrors : List String
deriving DecidableEq, Repr

structure CBState where
  state : CircuitState
  failureCount : ℕ
  successCount : ℕ
  lastFailureTime : Option ℕ
  nextRetryTime : Option ℕ
deriving DecidableEq, Repr

/-- The constructor initialises state CLOSED with both counters 0. -/
def initialCBState : CBState :=
  { state := .CLOSED
    failureCount := 0
    successCount := 0
    lastFailureTime := none
    nextRetryTime := none }

/-- CircuitBreaker.reset: close the circuit and clear all counters/times. -/
def resetCB (st : CBState) : CBState :=
  { st with
    state := .CLOSED
    failureCount := 0
    successCount := 0
    lastFailureTime := none
    nextRetryTime := none }

/-- CircuitBreaker.open (renamed: open is a Lean keyword):
set state OPEN and nextRetryTime = now + resetTimeout. -/
def openCircuit (opts : CircuitBreakerOptions) (now : ℕ) (st : CBState) : CBState :=
  { st with
    state := .OPEN
    nextRetryTime := some (now + opts.resetTimeout) }

/-- expectedErrors.some(e => error.message.includes(e)). -/
def isExpectedError (opts : CircuitBreakerOptions) (msg : String) : Bool :=
  opts.expectedErrors.any (fun e => stringIncludes msg e)

/-- CircuitBreaker.onSuccess. -/
def onSuccess (st : CBState) : CBState :=
  let st := { st with successCount := st.successCount + 1 }
  if st.state = .HALF_OPEN then resetCB st
  else if st.state = .CLOSED then { st with failureCount := 0 }
  else st

/-- CircuitBreaker.onFailure at time now with error message msg. -/
def onFailure (opts : CircuitBreakerOptions) (now : ℕ) (msg : String) (st : CBState) :
    CBState :=
  if isExpectedError opts msg then st
  else
    let st := { st with
      failureCount := st.failureCount + 1
      lastFailureTime := some now }
    if st.state = .HALF_OPEN then openCircuit opts now st
    else if st.state = .CLOSED ∧ opts.threshold ≤ st.failureCount then openCircuit opts now st
    else st

/-- CircuitBreaker.shouldAttemptReset: new Date() >= nextRetryTime. -/
def shouldAttemptReset (now : ℕ) (st : CBState) : Bool :=
  match st.nextRetryTime with
  | some t => decide (t ≤ now)
  | none => false

/-- Outcome of the wrapped function, when it is invoked. -/
inductive CallOutcome
  | success
  | failure (msg : String)
deriving DecidableEq, Repr

/-- Result of CircuitBreaker.execute: either the breaker rejected the call
without invoking fn (throwing msg), or fn was invoked and completed. -/
inductive ExecResult
  | rejected (msg : String)
  | completed (ok : Bool)
deriving DecidableEq, Repr

/-- Body of execute after the OPEN guard: invoke fn, dispatch on its outcome. -/
def runCall (opts : CircuitBreakerOptions) (now : ℕ) (outcome : CallOutcome)
    (st : CBState) : ExecResult × CBState :=
  match outcome with
  | .success => (.completed true, onSuccess st)
  | .failure msg => (.completed false, onFailure opts now msg st)

/-- CircuitBreaker.execute, with the invocation of fn represented by
consuming the given outcome. -/
def execute (opts : CircuitBreakerOptions) (serviceName : String) (now : ℕ)
    (outcome : CallOutcome) (st : CBState) : ExecResult × CBState :=
  if st.state = .OPEN then
    if shouldAttemptReset now st then
      runCall opts now outcome { st with state := .HALF_OPEN }
    else
      (.rejected ("Circuit breaker is OPEN for " ++ serviceName), st)
  else
    runCall opts now outcome st

/-- A sequence of execute calls whose wrapped function fails each time,
given as (time, error message) pairs. -/
def runFailures (opts : CircuitBreakerOptions) (serviceName : String)
    (events : List (ℕ × String)) (st : CBState) : CBState :=
  events.foldl (fun s e => (execute opts serviceName e.1 (.failure e.2) s).2) st

/-- CircuitBreaker.calculateUptime. -/
def calculateUptime (st : CBState) : ℚ :=
  let totalCalls := st.failureCount + st.successCount
  if totalCalls = 0 then 100
  else ((st.successCount : ℚ) / (totalCalls : ℚ)) * 100

structure CBMetrics where
  serviceName : String
  state : CircuitState
  failureCount : ℕ
  successCount : ℕ
  lastFailureTime : Option ℕ
  nextRetryTime : Option ℕ
  uptime : ℚ
deriving DecidableEq, Repr

/-- CircuitBreaker.getMetrics. -/
def getMetrics (serviceName : String) (st : CBState) : CBMetrics :=
  { serviceName := serviceName
    state := st.state
    failureCount := st.failureCount
    successCount := st.successCount
    lastFailureTime := st.lastFailureTime
    nextRetryTime := st.nextRetryTime
    uptime := calculateUptime st }

/-- ProxyService.wrapWithCircuitBreaker catch clause: an error whose message
contains the breaker-open marker is answered with HTTP 503; any other error
is passed on (none). -/
def proxyBreakerResponse (errMsg : String) : Option ℕ :=
  if stringIncludes errMsg "Circuit breaker is OPEN" then some 503 else none

/-! ## Load balancer (src/gateway/src/services/loadBalancer.ts) -/

inductive HealthStatus
  | healthy
  | unhealthy
  | unknown
deriving DecidableEq, Repr

structure ServiceHealth where
  name : String
  url : String
  status : HealthStatus
  responseTime : ℕ
  lastChecked : ℕ
  error : Option String := none
deriving DecidableEq, Repr

structure ServiceInstance where
  id : String
  url : String
  health : ServiceHealth
  weight : ℚ
  currentConnections : ℤ
deriving DecidableEq, Repr

inductive LoadBalancingStrategy
  | roundRobin
  | leastConnections
  | weighted
  | random
deriving DecidableEq, Repr

/-- Placeholder value behind out-of-range JS array indexing; the selection
functions are only reached with a non-empty healthy list, where it is
never produced. -/
def defaultInstance : ServiceInstance :=
  { id := ""
    url := ""
    health := { name := "", url := "", status := .unknown, responseTime := 0, lastChecked := 0 }
    weight := 1
    currentConnections := 0 }

/-- LoadBalancer.getHealthyInstances. -/
def getHealthyInstances (instances : List ServiceInstance) : List ServiceInstance :=
  instances.filter (fun i => decide (i.health.status = .healthy))

/-- LoadBalancer.roundRobinSelection: the selected instance and the updated
currentIndex field. -/
def roundRobinSelection (currentIndex : ℕ) (instances : List ServiceInstance) :
    ServiceInstance × ℕ :=
  (instances.getD (currentIndex % instances.length) defaultInstance,
   (currentIndex + 1) % instances.length)

/-- LoadBalancer.leastConnectionsSelection: JS reduce with the first element
as the initial accumulator. -/
def leastConnectionsSelection (instances : List ServiceInstance) : ServiceInstance :=
  match instances with
  | [] => defaultInstance
  | x :: rest =>
      rest.foldl
        (fun prev current =>
          if prev.currentConnections ≤ current.currentConnections then prev else current)
        x

/-- Loop of LoadBalancer.weightedSelection: subtract each weight from the
running random value and return the first instance at which it is ≤ 0. -/
def weightedLoop : ℚ → List ServiceInstance → Option ServiceInstance
  | _, [] => none
  | r, i :: rest =>
      let r := r - i.weight
      if r ≤ 0 then some i else weightedLoop r rest

/-- LoadBalancer.weightedSelection with Math.random() = r. -/
def weightedSelection (r : ℚ) (instances : List ServiceInstance) : ServiceInstance :=
  let totalWeight := instances.foldl (fun sum i => sum + i.weight) 0
  match weightedLoop (r * totalWeight) instances with
  | some i => i
  | none => instances.getD 0 defaultInstance

/-- LoadBalancer.randomSelection with Math.random() = r. -/
def randomSelection (r : ℚ) (instances : List ServiceInstance) : ServiceInstance :=
  instances.getD (⌊r * (instances.length : ℚ)⌋).toNat defaultInstance

/-- LoadBalancer.getNextInstance with Math.random() = r; returns the selected
instance (none when no instance is healthy) and the updated currentIndex. -/
def getNextInstance (strategy : LoadBalancingStrategy) (r : ℚ) (currentIndex : ℕ)
    (instances : List ServiceInstance) : Option ServiceInstance × ℕ :=
  let healthyInstances := getHealthyInstances instances
  if healthyInstances.length = 0 then (none, currentIndex)
  else
    match strategy with
    | .roundRobin =>
        let p := roundRobinSelection currentIndex healthyInstances
        (some p.1, p.2)
    | .leastConnections => (some (leastConnectionsSelection healthyInstances), currentIndex)
    | .weighted => (some (weightedSelection r healthyInstances), currentIndex)
    | .random => (some (randomSelection r healthyInstances), currentIndex)

/-! ## Health probe (LoadBalancer.checkInstanceHealth) -/

/-- What the axios GET against the health path produced. -/
inductive ProbeOutcome
  | response (status : ℕ)
  | timedOut
  | transportError (msg : String)
deriving DecidableEq, Repr

/-- axios.get with validateStatus = (status === 200): a received status other
than exactly 200 rejects, as do a timeout and a transport error. -/
def axiosGetHealth (outcome : ProbeOutcome) : Except String ℕ :=
  match outcome with
  | .response s =>
      if s = 200 then .ok s
      else .error ("Request failed with status code " ++ toString s)
  | .timedOut => .error "timeout exceeded"
  | .transportError m => .error m

/-- LoadBalancer.checkInstanceHealth: the ServiceHealth written back on the
instance, for probe outcome, elapsed milliseconds and check time now. -/
def checkInstanceHealth (serviceName : String) (now elapsed : ℕ)
    (inst : ServiceInstance) (outcome : ProbeOutcome) : ServiceHealth :=
  match axiosGetHealth outcome with
  | .ok _ =>
      { name := serviceName
        url := inst.url
        status := .healthy
        responseTime := elapsed
        lastChecked := now
        error := none }
  | .error e =>
      { name := serviceName
        url := inst.url
        status := .unhealthy
        responseTime := elapsed
        lastChecked := now
        error := some e }

/-! ## Rate-limit store (src/gateway/src/middleware/rateLimit.ts, RedisStore) -/

/-- A Redis counter value: its count and, when a TTL is set, the absolute
expiry time in milliseconds. -/
structure RateLimitEntry where
  count : ℕ
  expiresAt : Option ℕ
deriving DecidableEq, Repr

/-- A key that has passed its expiry behaves as absent. -/
def liveEntry (now : ℕ) (e : Option RateLimitEntry) : Option RateLimitEntry :=
  match e with
  | some en =>
      match en.expiresAt with
      | some t => if now < t then some en else none
      | none => some en
  | none => none

/-- Redis INCR: create the key with count 1 and no TTL when absent,
otherwise add one to its count, leaving the TTL as it is. -/
def redisIncr (now : ℕ) (e : Option RateLimitEntry) : ℕ × Option RateLimitEntry :=
  match liveEntry now e with
  | some en => (en.count + 1, some { en with count := en.count + 1 })
  | none => (1, some { count := 1, expiresAt := none })

/-- Redis EXPIRE seconds: set the TTL of a live key to now + seconds. -/
def redisExpire (now seconds : ℕ) (e : Option RateLimitEntry) : Option RateLimitEntry :=
  match liveEntry now e with
  | some en => some { en with expiresAt := some (now + seconds * 1000) }
  | none => none

/-- RedisStore.increment for one (policy, caller) key: MULTI of INCR then
EXPIRE ceil(windowMs/1000), returning (count, resetTime = now + windowMs)
and the new stored entry. -/
def storeIncrement (windowMs now : ℕ) (e : Option RateLimitEntry) :
    (ℕ × ℕ) × Option RateLimitEntry :=
  let resetTime := now + windowMs
  let r := redisIncr now e
  let e2 := redisExpire now ((windowMs + 999) / 1000) r.2
  ((r.1, resetTime), e2)

/-! ## Monitoring service (src/unnamed/part_005, MonitoringService) -/

/-- MonitoringService.calculatePercentile: index = ceil(p/100 · n) − 1,
guarded below by Math.max(0, index). Response times are integer millisecond
values, on which the final Math.round is the identity. -/
def calculatePercentile (sortedArray : List ℕ) (percentile : ℚ) : ℕ :=
  if sortedArray.length = 0 then 0
  else sortedArray.getD (max 0 (⌈(percentile / 100) * (sortedArray.length : ℚ)⌉ - 1)).toNat 0

/-- The percentile formula as the spec words it, with the index clamped to
[0, n − 1] on both sides; compared with calculatePercentile. -/
def specPercentile (sortedArray : List ℕ) (percentile : ℚ) : ℕ :=
  if sortedArray.length = 0 then 0
  else
    sortedArray.getD
      (min (max 0 (⌈(percentile / 100) * (sortedArray.length : ℚ)⌉ - 1))
        ((sortedArray.length : ℤ) - 1)).toNat 0

/-- JS Math.round: half-up rounding. -/
def jsRound (x : ℚ) : ℤ := ⌊x + 1 / 2⌋

/-- The aggregated metric quantities getHealthScore reads: request count,
error count, the p95 response time and the availability percentage. -/
structure HealthInputs where
  requestCount : ℕ
  errorCount : ℕ
  p95 : ℚ
  availability : ℚ
deriving DecidableEq, Repr

/-- The errorRate factor value: percentage of requests with status ≥ 400. -/
def errorRateValue (m : HealthInputs) : ℚ :=
  if 0 < m.requestCount then ((m.errorCount : ℚ) / (m.requestCount : ℚ)) * 100 else 0

/-- Lower error rate gives a higher impact: Math.max(0, 100 − value·2). -/
def errorRateImpact (m : HealthInputs) : ℚ :=
  max 0 (100 - errorRateValue m * 2)

/-- Response-time impact: Math.max(0, 100 − Math.min(p95 / 50, 100)). -/
def responseTimeImpact (m : HealthInputs) : ℚ :=
  max 0 (100 - min (m.p95 / 50) 100)

/-- Throughput impact: Math.min(100, requestCount / 10). -/
def throughputImpact (m : HealthInputs) : ℚ :=
  min 100 ((m.requestCount : ℚ) / 10)

/-- Sum of the four factor weights 30 + 25 + 20 + 25. -/
def totalWeight : ℚ := 30 + 25 + 20 + 25

/-- MonitoringService.getHealthScore: the four weighted factor impacts,
summed and rounded; the availability impact is the availability itself. -/
def getHealthScore (m : HealthInputs) : ℤ :=
  jsRound
    (errorRateImpact m * 30 / totalWeight + responseTimeImpact m * 25 / totalWeight
      + throughputImpact m * 20 / totalWeight + m.availability * 25 / totalWeight)

/-- First healthy endpoint of the round-robin example pool. -/
def instA : ServiceInstance :=
  { id := "content-0"
    url := "http://content-a:3000"
    health := { name := "content", url := "http://content-a:3000", status := .healthy,
                responseTime := 10, lastChecked := 0 }
    weight := 1
    currentConnections := 0 }

/-- Second healthy endpoint of the round-robin example pool. -/
def instB : ServiceInstance :=
  { id := "content-1"
    url := "http://content-b:3000"
    health := { name := "content", url := "http://content-b:3000", status := .healthy,
                responseTime := 12, lastChecked := 0 }
    weight := 1
    currentConnections := 0 }

/-- Third healthy endpoint of the round-robin example pool. -/
def instC : ServiceInstance :=
  { id := "content-2"
    url := "http://content-c:3000"
    health := { name := "content", url := "http://content-c:3000", status := .healthy,
                responseTime := 14, lastChecked := 0 }
    weight := 1
    currentConnections := 0 }

/-- The example pool [A, B, C], all healthy. -/
def pool : List ServiceInstance := [instA, instB, instC]

/-- An unhealthy endpoint, for pools with a mixed health set. -/
def instBad : ServiceInstance :=
  { id := "content-3"
    url := "http://content-d:3000"
    health := { name := "content", url := "http://content-d:3000", status := .unhealthy,
                responseTime := 0, lastChecked := 0, error := some "ECONNREFUSED" }
    weight := 1
    currentConnections := 0 }

/-- A pool whose healthy set is the singleton [instA]. -/
def mixedPool : List ServiceInstance := [instBad, instA]

/-! ## Theorems -/

/-- An in-range getD hits a member of the list. -/
theorem getD_mem {α : Type} (l : List α) (n : ℕ) (d : α) (h : n < l.length) :
    l.getD n d ∈ l := by
  induction l generalizing n with
  | nil => simp at h
  | cons x xs ih =>
      cases n with
      | zero => simp
      | succ m =>
          simp only [List.getD_cons_succ]
          exact List.mem_cons_of_mem _ (ih m (by simpa using h))

/-- The JS reduce of leastConnectionsSelection only ever returns the
accumulator or a list element. -/
theorem foldlPick_mem (l : List ServiceInstance) :
    ∀ acc : ServiceInstance,
      l.foldl
        (fun prev current =>
          if prev.currentConnections ≤ current.currentConnections then prev else current)
        acc ∈ acc :: l := by
  induction l with
  | nil => intro acc; simp
  | cons x xs ih =>
      intro acc
      simp only [List.foldl_cons]
      rcases List.mem_cons.mp
          (ih (if acc.currentConnections ≤ x.currentConnections then acc else x)) with h | h
      · rw [h]
        by_cases hc : acc.currentConnections ≤ x.currentConnections
        · simp [hc]
        · simp [hc]
      · exact List.mem_cons_of_mem _ (List.mem_cons_of_mem _ h)

/-- leastConnectionsSelection of a non-empty list is a member. -/
theorem leastConnectionsSelection_mem (l : List ServiceInstance) (h : l ≠ []) :
    leastConnectionsSelection l ∈ l := by
  cases l with
  | nil => exact absurd rfl h
  | cons x xs => simpa [leastConnectionsSelection] using foldlPick_mem xs x

/-- The weighted-selection loop only ever returns a member. -/
theorem weightedLoop_mem (r : ℚ) (l : List ServiceInstance) (i : ServiceInstance)
    (h : weightedLoop r l = some i) : i ∈ l := by
  induction l generalizing r with
  | nil => simp [weightedLoop] at h
  | cons x xs ih =>
      unfold weightedLoop at h
      by_cases hc : r - x.weight ≤ 0
      · simp only [hc, if_pos, Option.some_inj] at h
        simp [← h]
      · simp only [hc, if_neg, not_false_iff] at h
        exact List.mem_cons_of_mem _ (ih _ h)

/-- weightedSelection of a non-empty list is a member. -/
theorem weightedSelection_mem (r : ℚ) (l : List ServiceInstance) (h : l ≠ []) :
    weightedSelection r l ∈ l := by
  unfold weightedSelection
  cases hw : weightedLoop (r * l.foldl (fun sum i => sum + i.weight) 0) l with
  | some i =>
      simp only [hw]
      exact weightedLoop_mem _ _ _ hw
  | none =>
      simp only [hw]
      apply getD_mem
      cases l with
      | nil => exact absurd rfl h
      | cons x xs => simp

/-- randomSelection with 0 ≤ r < 1 on a non-empty list is a member. -/
theorem randomSelection_mem (r : ℚ) (l : List ServiceInstance)
    (h0 : 0 ≤ r) (h1 : r < 1) (h : l ≠ []) : randomSelection r l ∈ l := by
  unfold randomSelection
  apply getD_mem
  have hlen : 0 < l.length := List.length_pos.mpr h
  have hq : r * (l.length : ℚ) < (l.length : ℚ) := by
    have hl : (0 : ℚ) < (l.length : ℚ) := by exact_mod_cast hlen
    nlinarith
  have hfl : ⌊r * (l.length : ℚ)⌋ < (l.length : ℤ) :=
    Int.floor_lt.mpr (by exact_mod_cast hq)
  omega

/-- Members of the healthy set have status healthy. -/
theorem mem_getHealthyInstances {i : ServiceInstance} {l : List ServiceInstance}
    (h : i ∈ getHealthyInstances l) : i.health.status = .healthy := by
  have := (List.mem_filter.mp h).2
  exact of_decide_eq_true this

/-- Claim C3: under every strategy, getNextInstance returns none exactly
when no instance is healthy, and any returned instance has status
healthy. -/
theorem C3_selects_only_healthy (strategy : LoadBalancingStrategy) (r : ℚ)
    (currentIndex : ℕ) (instances : List ServiceInstance)
    (h0 : 0 ≤ r) (h1 : r < 1) :
    ((getNextInstance strategy r currentIndex instances).1 = none ↔
      getHealthyInstances instances = []) ∧
    ∀ i, (getNextInstance strategy r currentIndex instances).1 = some i →
      i.health.status = .healthy := by
  by_cases hemp : (getHealthyInstances instances).length = 0
  · have he : getHealthyInstances instances = [] := List.length_eq_zero.mp hemp
    constructor
    · simp [getNextInstance, hemp, he]
    · intro i hi
      simp [getNextInstance, hemp] at hi
  · have hne : getHealthyInstances instances ≠ [] := by
      intro hcontra
      rw [hcontra] at hemp
      simp at hemp
    have hmem : ∀ i, (getNextInstance strategy r currentIndex instances).1 = some i →
        i ∈ getHealthyInstances instances := by
      intro i hi
      unfold getNextInstance at hi
      rw [if_neg hemp] at hi
      cases strategy with
      | roundRobin =>
          simp only [Option.some_inj] at hi
          rw [← hi]
          apply getD_mem
          exact Nat.mod_lt _ (Nat.pos_of_ne_zero hemp)
      | leastConnections =>
          simp only [Option.some_inj] at hi
          rw [← hi]
          exact leastConnectionsSelection_mem _ hne
      | weighted =>
          simp only [Option.some_inj] at hi
          rw [← hi]
          exact weightedSelection_mem _ _ hne
      | random =>
          simp only [Option.some_inj] at hi
          rw [← hi]
          exact randomSelection_mem _ _ h0 h1 hne
    refine ⟨⟨fun hnone => ?_, fun hcontra => absurd hcontra hne⟩, fun i hi =>
      mem_getHealthyInstances (hmem i hi)⟩
    exfalso
    unfold getNextInstance at hnone
    rw [if_neg hemp] at hnone
    cases strategy <;> simp at hnone

/-- Claim C3 witness: on a pool with one unhealthy and one healthy endpoint,
least-connections selection returns the healthy one, and the result is not
none since the healthy set is non-empty. -/
theorem C3_selects_only_healthy_witness :
    instA.health.status = .healthy ∧
    ((getNextInstance .leastConnections 0 0 mixedPool).1 = none ↔
      getHealthyInstances mixedPool = []) := by
  have h := C3_selects_only_healthy .leastConnections 0 0 mixedPool (by decide) (by decide)
  exact ⟨h.2 instA rfl, h.1⟩

/-- Claim C8: with three healthy endpoints A, B, C and cursor 0, four
consecutive selections return A, B, C, A; in general the cursor advances by
one modulo the healthy-set size and the element at the old cursor modulo
that size is returned. -/
theorem C8_round_robin_cycle :
    ((getNextInstance .roundRobin 0 0 pool).1 = some instA ∧
     (getNextInstance .roundRobin 0 (getNextInstance .roundRobin 0 0 pool).2 pool).1 =
       some instB ∧
     (getNextInstance .roundRobin 0
       (getNextInstance .roundRobin 0 (getNextInstance .roundRobin 0 0 pool).2 pool).2
       pool).1 = some instC ∧
     (getNextInstance .roundRobin 0
       (getNextInstance .roundRobin 0
         (getNextInstance .roundRobin 0 (getNextInstance .roundRobin 0 0 pool).2 pool).2
         pool).2 pool).1 = some instA) ∧
    (∀ (currentIndex : ℕ) (instances : List ServiceInstance),
      getHealthyInstances instances ≠ [] →
      (getNextInstance .roundRobin 0 currentIndex instances).2 =
        (currentIndex + 1) % (getHealthyInstances instances).length ∧
      (getNextInstance .roundRobin 0 currentIndex instances).1 =
        some ((getHealthyInstances instances).getD
          (currentIndex % (getHealthyInstances instances).length) defaultInstance)) := by
  constructor
  · exact ⟨rfl, rfl, rfl, rfl⟩
  · intro currentIndex instances hne
    have hemp : ¬ ((getHealthyInstances instances).length = 0) := by
      simpa [List.length_eq_zero] using hne
    unfold getNextInstance
    rw [if_neg hemp]
    exact ⟨rfl, rfl⟩

/-- Claim C8 witness: from cursor 5 on the example pool the cursor becomes
(5 + 1) mod 3 = 0 and the element at index 5 mod 3 = 2, instC, is
returned. -/
theorem C8_round_robin_cycle_witness :
    (getNextInstance .roundRobin 0 5 pool).2 = (5 + 1) % (getHealthyInstances pool).length ∧
    (getNextInstance .roundRobin 0 5 pool).1 =
      some ((getHealthyInstances pool).getD (5 % (getHealthyInstances pool).length)
        defaultInstance) :=
  C8_round_robin_cycle.2 5 pool (by decide)

/-- Claim C9: the health score is monotonically non-increasing in the error
rate and in the p95 latency, with throughput and availability fixed. -/
theorem C9_health_score_monotone (m1 m2 : HealthInputs)
    (hreq : m1.requestCount = m2.requestCount)
    (hav : m1.availability = m2.availability)
    (herr : errorRateValue m1 ≤ errorRateValue m2)
    (hp95 : m1.p95 ≤ m2.p95) :
    getHealthScore m2 ≤ getHealthScore m1 := by
  unfold getHealthScore jsRound
  apply Int.floor_mono
  have h1 : errorRateImpact m2 ≤ errorRateImpact m1 := by
    unfold errorRateImpact
    exact max_le_max le_rfl (by linarith)
  have h2 : responseTimeImpact m2 ≤ responseTimeImpact m1 := by
    unfold responseTimeImpact
    apply max_le_max le_rfl
    have hmin : min (m1.p95 / 50) 100 ≤ min (m2.p95 / 50) 100 :=
      min_le_min (by linarith) le_rfl
    linarith
  have h3 : throughputImpact m2 = throughputImpact m1 := by
    unfold throughputImpact
    rw [hreq]
  rw [hav, h3]
  have htw : totalWeight = 100 := by norm_num [totalWeight]
  rw [htw]
  linarith

/-- One failing call unfolds runFailures by one step. -/
theorem runFailures_cons (opts : CircuitBreakerOptions) (name : String)
    (a : ℕ × String) (rest : List (ℕ × String)) (st : CBState) :
    runFailures opts name (a :: rest) st =
      runFailures opts name rest ((execute opts name a.1 (.failure a.2) st).2) := rfl

/-- From a CLOSED state, a non-expected failure goes through onFailure. -/
theorem execute_closed_failure (opts : CircuitBreakerOptions) (name : String)
    (now : ℕ) (msg : String) (st : CBState) (hclosed : st.state = .CLOSED) :
    (execute opts name now (.failure msg) st).2 = onFailure opts now msg st := by
  unfold execute
  rw [if_neg (by rw [hclosed]; intro hcontra; cases hcontra)]
  rfl

/-- A run of consecutive non-expected failures that exhausts the remaining
threshold budget of a CLOSED breaker leaves it OPEN, with nextRetryTime
the last failure time plus resetTimeout. -/
theorem runFailures_closed_opens (opts : CircuitBreakerOptions) (name : String) :
    ∀ (events : List (ℕ × String)) (st : CBState) (hne : events ≠ []),
      st.state = .CLOSED →
      st.failureCount + events.length = opts.threshold →
      (∀ e ∈ events, isExpectedError opts e.2 = false) →
      (runFailures opts name events st).state = .OPEN ∧
      (runFailures opts name events st).nextRetryTime =
        some ((events.getLast hne).1 + opts.resetTimeout) := by
  intro events
  induction events with
  | nil => intro st hne; exact absurd rfl hne
  | cons a rest ih =>
      intro st hne hclosed hcount hexp
      have hnotexp : isExpectedError opts a.2 = false := hexp a (List.mem_cons_self a rest)
      cases rest with
      | nil =>
          have hth : opts.threshold ≤ st.failureCount + 1 := by
            simp at hcount
            omega
          rw [runFailures_cons, execute_closed_failure opts name a.1 a.2 st hclosed]
          unfold runFailures onFailure openCircuit
          simp [hnotexp, hclosed, hth]
      | cons b rest2 =>
          have hlt : ¬ (opts.threshold ≤ st.failureCount + 1) := by
            simp at hcount
            omega
          rw [runFailures_cons, execute_closed_failure opts name a.1 a.2 st hclosed]
          have hmid : onFailure opts a.1 a.2 st =
              { st with failureCount := st.failureCount + 1, lastFailureTime := some a.1 } := by
            unfold onFailure
            simp [hnotexp, hclosed, hlt]
          rw [hmid]
          have hres := ih
            { st with failureCount := st.failureCount + 1, lastFailureTime := some a.1 }
            (List.cons_ne_nil b rest2) (by simpa using hclosed)
            (by simp at hcount ⊢; omega)
            (fun e he => hexp e (List.mem_cons_of_mem a he))
          refine ⟨hres.1, ?_⟩
          rw [hres.2, List.getLast_cons (List.cons_ne_nil b rest2)]

/-- Claim C1: the circuit breaker state machine: threshold consecutive
non-expected failures drive a fresh CLOSED breaker to OPEN, setting
nextRetryTime to the last failure time plus resetTimeout; while OPEN
before nextRetryTime, execute rejects without invoking the wrapped
function; at or after nextRetryTime it transitions through HALF_OPEN and
invokes the function once, closing with both counters reset to 0 on
success and reopening with a fresh nextRetryTime on a non-expected
failure; the same success/failure transitions hold from HALF_OPEN. -/
theorem C1_state_machine (opts : CircuitBreakerOptions) (name : String) :
    (∀ (events : List (ℕ × String)) (hne : events ≠ []),
      events.length = opts.threshold →
      (∀ e ∈ events, isExpectedError opts e.2 = false) →
      (runFailures opts name events initialCBState).state = .OPEN ∧
      (runFailures opts name events initialCBState).nextRetryTime =
        some ((events.getLast hne).1 + opts.resetTimeout)) ∧
    (∀ (st : CBState) (now t : ℕ) (outcome : CallOutcome),
      st.state = .OPEN → st.nextRetryTime = some t → now < t →
      execute opts name now outcome st =
        (.rejected ("Circuit breaker is OPEN for " ++ name), st)) ∧
    (∀ (st : CBState) (now t : ℕ),
      st.state = .OPEN → st.nextRetryTime = some t → t ≤ now →
      (execute opts name now .success st).1 = .completed true ∧
      (execute opts name now .success st).2.state = .CLOSED ∧
      (execute opts name now .success st).2.failureCount = 0 ∧
      (execute opts name now .success st).2.successCount = 0) ∧
    (∀ (st : CBState) (now t : ℕ) (msg : String),
      st.state = .OPEN → st.nextRetryTime = some t → t ≤ now →
      isExpectedError opts msg = false →
      (execute opts name now (.failure msg) st).1 = .completed false ∧
      (execute opts name now (.failure msg) st).2.state = .OPEN ∧
      (execute opts name now (.failure msg) st).2.nextRetryTime =
        some (now + opts.resetTimeout)) ∧
    (∀ (st : CBState) (now : ℕ),
      st.state = .HALF_OPEN →
      (execute opts name now .success st).2.state = .CLOSED ∧
      (execute opts name now .success st).2.failureCount = 0 ∧
      (execute opts name now .success st).2.successCount = 0) ∧
    (∀ (st : CBState) (now : ℕ) (msg : String),
      st.state = .HALF_OPEN → isExpectedError opts msg = false →
      (execute opts name now (.failure msg) st).2.state = .OPEN ∧
      (execute opts name now (.failure msg) st).2.nextRetryTime =
        some (now + opts.resetTimeout)) := by
  refine ⟨?_, ?_, ?_, ?_, ?_, ?_⟩
  · intro events hne hlen hexp
    exact runFailures_closed_opens opts name events initialCBState hne rfl
      (by simpa [initialCBState] using hlen) hexp
  · intro st now t outcome hstate hnrt hlt
    have hres : shouldAttemptReset now st = false := by
      simp only [shouldAttemptReset, hnrt, decide_eq_false_iff_not]
      omega
    simp [execute, hstate, hres]
  · intro st now t hstate hnrt hle
    have hres : shouldAttemptReset now st = true := by
      simp only [shouldAttemptReset, hnrt]
      exact decide_eq_true hle
    simp [execute, hstate, hres, runCall, onSuccess, resetCB]
  · intro st now t msg hstate hnrt hle hnotexp
    have hres : shouldAttemptReset now st = true := by
      simp only [shouldAttemptReset, hnrt]
      exact decide_eq_true hle
    simp [execute, hstate, hres, runCall, onFailure, hnotexp, openCircuit]
  · intro st now hstate
    have hno : ¬ (st.state = .OPEN) := by rw [hstate]; intro hcontra; cases hcontra
    simp [execute, hno, runCall, onSuccess, hstate, resetCB]
  · intro st now msg hstate hnotexp
    have hno : ¬ (st.state = .OPEN) := by rw [hstate]; intro hcontra; cases hcontra
    simp [execute, hno, runCall, onFailure, hnotexp, hstate, openCircuit]

/-- Claim C1 witness: with threshold 3 and resetTimeout 30000, the three
failures at times 0, 5 and 9 open a fresh breaker with nextRetryTime
30009, and a success at time 30009 on the resulting OPEN breaker closes it
with both counters 0. -/
theorem C1_state_machine_witness :
    (runFailures { threshold := 3, resetTimeout := 30000, expectedErrors := [] } "auth"
        [(0, "boom"), (5, "boom"), (9, "boom")] initialCBState).state = .OPEN ∧
    (runFailures { threshold := 3, resetTimeout := 30000, expectedErrors := [] } "auth"
        [(0, "boom"), (5, "boom"), (9, "boom")] initialCBState).nextRetryTime =
      some (9 + 30000) ∧
    (execute { threshold := 3, resetTimeout := 30000, expectedErrors := [] } "auth" 30009
        .success
        { state := .OPEN
          failureCount := 3
          successCount := 0
          lastFailureTime := some 9
          nextRetryTime := some 30009 }).2.state = .CLOSED := by
  have h := C1_state_machine
    { threshold := 3, resetTimeout := 30000, expectedErrors := [] } "auth"
  have h1 := h.1 [(0, "boom"), (5, "boom"), (9, "boom")] (by decide) (by decide)
    (by decide)
  have h3 := h.2.2.1
    { state := .OPEN
      failureCount := 3
      successCount := 0
      lastFailureTime := some 9
      nextRetryTime := some 30009 } 30009 30009 rfl rfl (by decide)
  exact ⟨h1.1, h1.2, h3.2.1⟩

/-- Claim C9 witness: raising the error rate from 0% to 10% and the p95 from
100ms to 500ms, with throughput and availability fixed, does not raise the
score. -/
theorem C9_health_score_monotone_witness :
    getHealthScore
        { requestCount := 100, errorCount := 10, p95 := 500, availability := 100 } ≤
      getHealthScore
        { requestCount := 100, errorCount := 0, p95 := 100, availability := 100 } :=
  C9_health_score_monotone
    { requestCount := 100, errorCount := 0, p95 := 100, availability := 100 }
    { requestCount := 100, errorCount := 10, p95 := 500, availability := 100 }
    rfl rfl (by norm_num [errorRateValue]) (by norm_num)

/-- Claim C10: with no recorded calls at all the reported uptime percentage
is 100; with at least one recorded call it is successCount over the total
call count, times 100. -/
theorem C10_uptime (serviceName : String) (st : CBState) :
    (st.failureCount + st.successCount = 0 → (getMetrics serviceName st).uptime = 100) ∧
    (0 < st.failureCount + st.successCount →
      (getMetrics serviceName st).uptime =
        ((st.successCount : ℚ) / ((st.failureCount + st.successCount : ℕ) : ℚ)) * 100) := by
  constructor
  · intro h
    simp [getMetrics, calculateUptime, h]
  · intro h
    have h0 : ¬ (st.failureCount + st.successCount = 0) := by omega
    simp [getMetrics, calculateUptime, h0]

/-- Claim C10 witness: a fresh breaker reports uptime 100, and one with one
failure and three successes reports 75. -/
theorem C10_uptime_witness :
    (getMetrics "auth" initialCBState).uptime = 100 ∧
    (getMetrics "auth"
      { state := .CLOSED
        failureCount := 1
        successCount := 3
        lastFailureTime := some 7
        nextRetryTime := none }).uptime = ((3 : ℚ) / ((4 : ℕ) : ℚ)) * 100 := by
  constructor
  · exact (C10_uptime "auth" initialCBState).1 (by decide)
  · exact (C10_uptime "auth"
      { state := .CLOSED
        failureCount := 1
        successCount := 3
        lastFailureTime := some 7
        nextRetryTime := none }).2 (by decide)

/-- Claim C5: a failure whose message matches the expectedErrors allow-list
leaves failureCount, lastFailureTime and the breaker state unchanged, in
every state. -/
theorem C5_expected_errors_frame (opts : CircuitBreakerOptions) (now : ℕ) (msg : String)
    (st : CBState) (h : isExpectedError opts msg = true) :
    (onFailure opts now msg st).failureCount = st.failureCount ∧
    (onFailure opts now msg st).lastFailureTime = st.lastFailureTime ∧
    (onFailure opts now msg st).state = st.state := by
  simp [onFailure, h]

/-- Claim C5 witness: an ECONNABORTED error against an allow-list holding
ECONNABORTED changes nothing on a breaker one failure from its threshold. -/
theorem C5_expected_errors_frame_witness :
    (onFailure { threshold := 3, resetTimeout := 30000, expectedErrors := ["ECONNABORTED"] }
      42 "ECONNABORTED: request aborted"
      { state := .CLOSED
        failureCount := 2
        successCount := 5
        lastFailureTime := some 40
        nextRetryTime := none }).failureCount = 2 := by
  exact (C5_expected_errors_frame
    { threshold := 3, resetTimeout := 30000, expectedErrors := ["ECONNABORTED"] }
    42 "ECONNABORTED: request aborted"
    { state := .CLOSED
      failureCount := 2
      successCount := 5
      lastFailureTime := some 40
      nextRetryTime := none } (by decide)).1

/-- Claim C6: while OPEN before nextRetryTime, execute rejects with the
distinct breaker-open error, leaving the state untouched and never invoking
the wrapped function, and the proxy layer answers that error with 503. -/
theorem C6_open_rejection_503 (opts : CircuitBreakerOptions) (name : String)
    (now t : ℕ) (outcome : CallOutcome) (st : CBState)
    (hstate : st.state = .OPEN) (hnrt : st.nextRetryTime = some t) (hlt : now < t) :
    execute opts name now outcome st =
      (.rejected ("Circuit breaker is OPEN for " ++ name), st) ∧
    proxyBreakerResponse ("Circuit breaker is OPEN for " ++ name) = some 503 := by
  constructor
  · have hres : shouldAttemptReset now st = false := by
      simp only [shouldAttemptReset, hnrt, decide_eq_false_iff_not]
      omega
    simp [execute, hstate, hres]
  · have hinf : ("Circuit breaker is OPEN".toList : List Char) <:+:
        ("Circuit breaker is OPEN for " ++ name).toList := by
      have hpre : ("Circuit breaker is OPEN".toList : List Char) <+:
          ("Circuit breaker is OPEN for ".toList : List Char) := by decide
      have hfull : ("Circuit breaker is OPEN".toList : List Char) <+:
          ("Circuit breaker is OPEN for ".toList ++ name.toList) :=
        hpre.trans (List.prefix_append _ _)
      have hdata : ("Circuit breaker is OPEN for " ++ name).toList =
          "Circuit breaker is OPEN for ".toList ++ name.toList :=
        String.data_append _ _
      rw [hdata]
      exact hfull.isInfix
    unfold proxyBreakerResponse stringIncludes
    rw [decide_eq_true hinf]
    simp

/-- Claim C6 witness: a breaker for the auth service, open until 30009,
rejects a call at time 10 and the proxy maps the error to 503. -/
theorem C6_open_rejection_503_witness :
    execute { threshold := 3, resetTimeout := 30000, expectedErrors := [] } "auth" 10
      .success
      { state := .OPEN
        failureCount := 3
        successCount := 0
        lastFailureTime := some 9
        nextRetryTime := some 30009 } =
      (.rejected ("Circuit breaker is OPEN for " ++ "auth"),
        { state := .OPEN
          failureCount := 3
          successCount := 0
          lastFailureTime := some 9
          nextRetryTime := some 30009 }) ∧
    proxyBreakerResponse ("Circuit breaker is OPEN for " ++ "auth") = some 503 :=
  C6_open_rejection_503 { threshold := 3, resetTimeout := 30000, expectedErrors := [] }
    "auth" 10 30009 .success
    { state := .OPEN
      failureCount := 3
      successCount := 0
      lastFailureTime := some 9
      nextRetryTime := some 30009 } rfl rfl (by decide)

/-- Claim C7 counterexample: with a 60-second window, a second increment of
the same key one second into the window moves the stored expiry from 60000
to 61000, so a subsequent increment does move the window-reset time. -/
theorem C7_counterexample :
    (storeIncrement 60000 0 none).2 = some { count := 1, expiresAt := some 60000 } ∧
    (storeIncrement 60000 1000 (storeIncrement 60000 0 none).2).2 =
      some { count := 2, expiresAt := some 61000 } ∧
    (60000 : ℕ) ≠ 61000 := by decide

/-- Claim C7 as amended: every increment, first or not, rewrites the
counter expiry to now + ceil(windowMs/1000) seconds, and always reports
resetTime = now + windowMs. -/
theorem C7_increment_always_sets_expiry (windowMs now : ℕ) (e : Option RateLimitEntry) :
    (storeIncrement windowMs now e).1.2 = now + windowMs ∧
    ∃ c, (storeIncrement windowMs now e).2 =
      some { count := c, expiresAt := some (now + ((windowMs + 999) / 1000) * 1000) } := by
  refine ⟨rfl, ?_⟩
  unfold storeIncrement redisIncr redisExpire
  cases e with
  | none => exact ⟨1, by simp [liveEntry]⟩
  | some en =>
    cases hx : en.expiresAt with
    | none => exact ⟨en.count + 1, by simp [liveEntry, hx]⟩
    | some t =>
      by_cases hlt : now < t
      · exact ⟨en.count + 1, by simp [liveEntry, hx, hlt]⟩
      · exact ⟨1, by simp [liveEntry, hx, hlt]⟩

/-- Claim C4 counterexample: a 201 response, a 2xx status received within
the timeout, is marked unhealthy: the probe only accepts status exactly 200
(validateStatus is status === 200). -/
theorem C4_counterexample :
    ¬ ((checkInstanceHealth "auth" 0 5 defaultInstance (.response 201)).status = .healthy ↔
      (200 ≤ 201 ∧ 201 < 300)) := by decide

/-- Claim C4 as amended: the probe marks an endpoint healthy exactly when a
response with status exactly 200 arrives within the timeout; every other
outcome marks it unhealthy with the error recorded. -/
theorem C4_probe_healthy_iff_200 (serviceName : String) (now elapsed : ℕ)
    (inst : ServiceInstance) (outcome : ProbeOutcome) :
    ((checkInstanceHealth serviceName now elapsed inst outcome).status = .healthy ↔
      outcome = .response 200) ∧
    (outcome ≠ .response 200 →
      (checkInstanceHealth serviceName now elapsed inst outcome).status = .unhealthy ∧
      ∃ e, (checkInstanceHealth serviceName now elapsed inst outcome).error = some e) := by
  cases outcome with
  | response s =>
      by_cases h : s = 200 <;> simp [checkInstanceHealth, axiosGetHealth, h]
  | timedOut => simp [checkInstanceHealth, axiosGetHealth]
  | transportError m => simp [checkInstanceHealth, axiosGetHealth]

/-- Claim C4 witness: a timed-out probe marks the endpoint unhealthy and
records the error. -/
theorem C4_probe_healthy_iff_200_witness :
    (checkInstanceHealth "auth" 0 5 defaultInstance .timedOut).status = .unhealthy ∧
    ∃ e, (checkInstanceHealth "auth" 0 5 defaultInstance .timedOut).error = some e :=
  (C4_probe_healthy_iff_200 "auth" 0 5 defaultInstance .timedOut).2 (by decide)

/-- Claim C2: for a non-empty ascending list and a percentile between 0 and
100, calculatePercentile agrees with the spec formula (index ceil(p/100·n)−1
clamped to [0, n−1]); on [100,150,200,250,300] the p50 is 200 and the p95
is 300. -/
theorem C2_percentile_formula (l : List ℕ) (p : ℚ) (hne : l ≠ [])
    (hsorted : l.Sorted (· ≤ ·)) (h0 : 0 ≤ p) (h100 : p ≤ 100) :
    calculatePercentile l p = specPercentile l p ∧
    calculatePercentile [100, 150, 200, 250, 300] 50 = 200 ∧
    calculatePercentile [100, 150, 200, 250, 300] 95 = 300 := by
  refine ⟨?_, ?_, ?_⟩
  case refine_2 =>
    have h : (⌈(5 : ℚ) / 2⌉ : ℤ) = 3 := by rw [Int.ceil_eq_iff] <;> norm_num
    norm_num [calculatePercentile, List.getD, h]
    decide
  case refine_3 =>
    have h : (⌈(19 : ℚ) / 4⌉ : ℤ) = 5 := by rw [Int.ceil_eq_iff] <;> norm_num
    norm_num [calculatePercentile, List.getD, h]
    decide
  have hn : ¬ (l.length = 0) := by
    simpa [List.length_eq_zero] using hne
  rw [calculatePercentile, specPercentile, if_neg hn, if_neg hn]
  have hnpos : 1 ≤ l.length := Nat.pos_of_ne_zero hn
  have hle : (⌈(p / 100) * (l.length : ℚ)⌉ - 1 : ℤ) ≤ (l.length : ℤ) - 1 := by
    have hq : (p / 100) * (l.length : ℚ) ≤ (l.length : ℚ) := by
      have hp1 : p / 100 ≤ 1 := by linarith
      have hl0 : (0 : ℚ) ≤ (l.length : ℚ) := by positivity
      nlinarith
    have hc : ⌈(p / 100) * (l.length : ℚ)⌉ ≤ (l.length : ℤ) :=
      Int.ceil_le.mpr (by exact_mod_cast hq)
    omega
  have h01 : (0 : ℤ) ≤ (l.length : ℤ) - 1 := by omega
  rw [min_eq_left (max_le h01 hle)]

/-- Claim C2 witness: the stated example list at p50 matches the clamped
spec formula and equals 200. -/
theorem C2_percentile_formula_witness :
    calculatePercentile [100, 150, 200, 250, 300] 50 =
      specPercentile [100, 150, 200, 250, 300] 50 ∧
    calculatePercentile [100, 150, 200, 250, 300] 50 = 200 ∧
    calculatePercentile [100, 150, 200, 250, 300] 95 = 300 := by
  have h := C2_percentile_formula [100, 150, 200, 250, 300] 50 (by decide)
    (by decide) (by decide) (by decide)
  exact ⟨h.1, h.2.1, h.2.2⟩

end WatchFlix
